import Mathlib

/-
Verification of the tasmota power-logging script (src/main.py): a shallow
embedding of its regime-classification and notification state machine.

Modelling conventions:
* `datetime.datetime` values are embedded as rationals (seconds on a
  time axis), an order-embedding of the datetimes the program handles.
  `datetime.datetime.min` maps to `0`; a datetime has `.year == 1`
  exactly when it lies in `[0, yearOneEnd)`.
* `datetime.timedelta` values are rationals (seconds); the configured
  durations `min_runtime` / `min_data_window` are `minutes * 60`.
* Telegram delivery is abstracted by `acks : Target → Bool`, the value of
  `result.get("ok")` the transport would return for each chat target; the
  embedding records which targets a call attempts.
* Python floats are embedded as rationals.  `fib` uses the closed-form
  Binet expression; it is computed here exactly in ℚ(√5) (the binary64
  evaluation in the source agrees with the exact value for all the small
  arguments this development evaluates).
* The persisted JSON document is embedded as `JVal` / `JObj`
  (associative lists in insertion order, as CPython dicts); Python
  run-time errors of `update_dict_recursive` on kind-mismatched
  documents surface as `none`.
-/

namespace LogTasmota

/-- end of calendar year 1 on the rational time axis that embeds
`datetime` (365 days after `datetime.min`); a time `t` satisfies
`.year == 1` iff `0 ≤ t < yearOneEnd`, and all embedded datetimes are
`≥ 0 = datetime.min`. -/
def yearOneEnd : ℚ := 365 * 24 * 60 * 60

/-- test `t.year == 1` for an embedded datetime (all embedded datetimes
are `≥ 0`, so only the upper bound is checked). -/
def yearEqOne (t : ℚ) : Bool := t < yearOneEnd

/-- element `a + b·√5` of ℚ(√5), the exact field in which the Binet
formula of `fib` is evaluated. -/
structure Qrt5 where
  a : ℚ
  b : ℚ
deriving DecidableEq, Repr

/-- multiplication in ℚ(√5). -/
def Qrt5.mul (x y : Qrt5) : Qrt5 :=
  ⟨x.a * y.a + 5 * x.b * y.b, x.a * y.b + x.b * y.a⟩

/-- subtraction in ℚ(√5). -/
def Qrt5.sub (x y : Qrt5) : Qrt5 :=
  ⟨x.a - y.a, x.b - y.b⟩

/-- natural power in ℚ(√5). -/
def Qrt5.pow (x : Qrt5) : ℕ → Qrt5
  | 0 => ⟨1, 0⟩
  | n + 1 => (Qrt5.pow x n).mul x

/-- the golden ratio `p = (1 + sqrt(5)) / 2` of `fib`. -/
def phiQ : Qrt5 := ⟨1 / 2, 1 / 2⟩

/-- its conjugate `q = (1 - sqrt(5)) / 2` of `fib`. -/
def psiQ : Qrt5 := ⟨1 / 2, -(1 / 2)⟩

/-- division by √5 in ℚ(√5): `(a + b√5)/√5 = b + (a/5)√5`. -/
def Qrt5.divSqrt5 (x : Qrt5) : Qrt5 := ⟨x.b, x.a / 5⟩

/-- conjugation `a + b√5 ↦ a - b√5`. -/
def Qrt5.conj (x : Qrt5) : Qrt5 := ⟨x.a, -x.b⟩

/-- Python `int()` on a rational: truncation toward zero
(`num/den` in lowest terms with positive denominator, `tdiv` truncating). -/
def ratTrunc (q : ℚ) : ℤ := q.num.tdiv q.den

/-- `fib(n) = int((p**n - q**n) / math.sqrt(5))`, evaluated exactly in
ℚ(√5); `(p^n - q^n)/√5` has √5-part zero (see `fib_sqrt5_part_eq_zero`),
so its value is the rational part, truncated by `int()`. -/
def fib (n : ℕ) : ℤ :=
  ratTrunc (((phiQ.pow n).sub (psiQ.pow n)).divSqrt5.a)

/-- the re-remind wait used by `print_done`:
`n_th_fib = max(300, fib(config.re_remind_counter))` seconds
("increase by Fibonacci, minimum 5 minutes"). -/
def reRemindWait (counter : ℕ) : ℤ := max 300 (fib counter)

/-- the three Telegram chat targets a notification can fan out to
(`server_mail_id`, `todo_id`, `jo_private_id`). -/
inductive Target where
  | serverMail
  | todo
  | joPrivate
deriving DecidableEq, Repr

/-- one persisted per-regime record
(`config["stats"][regime]`): entry time, last-notified time, cumulative
energy at entry, and the urgency level of each notification target
(0 = skip, 1 = muted, 2 = alert). -/
structure Stats where
  time : ℚ
  last_sent : ℚ
  power_total : ℚ
  notifServerMail : ℤ
  notifTodo : ℤ
  notifJoPrivate : ℤ
deriving DecidableEq, Repr

/-- the persisted configuration document as the notification functions
read it through the `Config` properties: thresholds, debounce durations
(in minutes, as stored), the re-remind flag and counter, and the four
per-regime records. -/
structure St where
  off_power : ℚ
  max_idle_power : ℚ
  min_runtime_minutes : ℚ
  min_data_window_minutes : ℚ
  re_remind : Bool
  re_remind_counter : ℕ
  statsOn : Stats
  statsOff : Stats
  statsDone : Stats
  statsRunning : Stats
deriving DecidableEq, Repr

/-- `config.min_runtime` in seconds. -/
def St.minRuntime (c : St) : ℚ := c.min_runtime_minutes * 60

/-- `config.min_data_window` in seconds. -/
def St.minDataWindow (c : St) : ℚ := c.min_data_window_minutes * 60

/-- outcome of one `print_on` / `print_off` / `print_done` call: the
mutated config, the Python return value, and the targets to which a
Telegram send was attempted (in program order). -/
structure PrintResult where
  st : St
  ret : Bool
  attempted : List Target
deriving DecidableEq, Repr

/-- target `t` is attempted when its urgency `u` is positive
(`> 0` in the source; urgency 0 suppresses the send). -/
def urgAttempt (u : ℤ) (t : Target) : List Target := if 0 < u then [t] else []

/-- targets `print_on` attempts, per the on-record urgencies. -/
def onAttemptList (s : Stats) : List Target :=
  urgAttempt s.notifServerMail .serverMail ++
  urgAttempt s.notifTodo .todo ++
  urgAttempt s.notifJoPrivate .joPrivate

/-- targets `print_off` attempts, per the off-record urgencies. -/
def offAttemptList (s : Stats) : List Target :=
  urgAttempt s.notifServerMail .serverMail ++
  urgAttempt s.notifTodo .todo ++
  urgAttempt s.notifJoPrivate .joPrivate

/-- targets `print_done` attempts: as the urgencies dictate, except that
the `todo` target is skipped when the message is a reminder (contains
`"Erinnerung"`, written exactly when `re_remind_now` holds and the
counter is positive). -/
def doneAttemptList (s : Stats) (isReminder : Bool) : List Target :=
  urgAttempt s.notifServerMail .serverMail ++
  (if 0 < s.notifTodo ∧ isReminder = false then [.todo] else []) ++
  urgAttempt s.notifJoPrivate .joPrivate

/-- `print_on(config, current_power_on_time, csv_log_name, lines, header,
suppress_message)`.  `latestTotal` stands for
`float(lines[-1][header.index("Total")])` and `now` for the
`datetime.datetime.now()` taken when a successful send is recorded. -/
def printOn (c : St) (currentOnTime latestTotal now : ℚ)
    (acks : Target → Bool) (suppress : Bool) : PrintResult :=
  if c.statsOn.last_sent ≥ currentOnTime then ⟨c, false, []⟩
  else
    let lastOffOrDone := max c.statsOff.time c.statsDone.time
    if lastOffOrDone ≤ c.statsOn.last_sent then ⟨c, false, []⟩
    else
      let c1 := { c with statsOn :=
        { c.statsOn with time := currentOnTime, power_total := latestTotal } }
      let attempted : List Target :=
        if suppress then [] else onAttemptList c1.statsOn
      let resultOk := attempted.all acks
      let c2 := if resultOk then
        { c1 with statsOn := { c1.statsOn with last_sent := now } } else c1
      ⟨{ c2 with re_remind_counter := 0 }, true, attempted⟩

/-- `print_off(config, current_power_off_time, latest_total_power,
csv_log_name, suppress_message)`; `now` is the `datetime.datetime.now()`
recorded into `last_sent` on full delivery success. -/
def printOff (c : St) (currentOffTime latestTotal now : ℚ)
    (acks : Target → Bool) (suppress : Bool) : PrintResult :=
  let lastOnOrDone := max c.statsOn.time c.statsDone.time
  if currentOffTime - lastOnOrDone < c.minRuntime then ⟨c, false, []⟩
  else if currentOffTime - c.statsRunning.time < c.minDataWindow then ⟨c, false, []⟩
  else if lastOnOrDone ≤ c.statsOff.last_sent then ⟨c, false, []⟩
  else
    let c1 := { c with statsOff :=
      { c.statsOff with time := currentOffTime, power_total := latestTotal } }
    let sendingMessage :=
      yearEqOne c1.statsOff.last_sent || c1.statsOff.last_sent < c1.statsOff.time
    if ¬ sendingMessage then ⟨c1, false, []⟩
    else
      let attempted : List Target :=
        if suppress then [] else offAttemptList c1.statsOff
      let resultOk := attempted.all acks
      let c2 := if resultOk then
        { c1 with statsOff := { c1.statsOff with last_sent := now } } else c1
      ⟨{ c2 with re_remind_counter := 0 }, true, attempted⟩

/-- the `re_remind_now` condition of `print_done`: re-reminding is
enabled and at least `max(300, fib(counter))` seconds have passed since
`stats_done_last_sent`. -/
def doneReRemindNow (c : St) (currentDoneTime : ℚ) : Prop :=
  c.re_remind ∧
    currentDoneTime - c.statsDone.last_sent ≥ ((reRemindWait c.re_remind_counter : ℤ) : ℚ)

instance (c : St) (t : ℚ) : Decidable (doneReRemindNow c t) := by
  unfold doneReRemindNow
  infer_instance

/-- `print_done(config, current_done_time, latest_total_power,
csv_log_name, suppress_message)`; `now` is the `datetime.datetime.now()`
recorded into `last_sent` on full delivery success. -/
def printDone (c : St) (currentDoneTime latestTotal now : ℚ)
    (acks : Target → Bool) (suppress : Bool) : PrintResult :=
  let lastOnOrOff := max c.statsOn.time c.statsOff.time
  if currentDoneTime - lastOnOrOff < c.minRuntime then ⟨c, false, []⟩
  else if currentDoneTime - c.statsRunning.time < c.minDataWindow then ⟨c, false, []⟩
  else
    let reRemindNow := doneReRemindNow c currentDoneTime
    if lastOnOrOff ≤ c.statsDone.last_sent ∧ ¬ reRemindNow then ⟨c, false, []⟩
    else
      let c1 := if c.re_remind_counter = 0 then
        { c with statsDone :=
          { c.statsDone with time := currentDoneTime, power_total := latestTotal } }
        else c
      let sendingMessage :=
        yearEqOne c1.statsDone.last_sent ∨
          c1.statsDone.last_sent < c1.statsDone.time ∨ reRemindNow
      if ¬ sendingMessage then ⟨c1, false, []⟩
      else
        let isReminder : Bool := decide (reRemindNow ∧ 0 < c1.re_remind_counter)
        let attempted : List Target :=
          if suppress then [] else doneAttemptList c1.statsDone isReminder
        let resultOk := attempted.all acks
        let c2 := if resultOk then
          { c1 with statsDone := { c1.statsDone with last_sent := now },
                    re_remind_counter := c1.re_remind_counter + 1 } else c1
        ⟨c2, true, attempted⟩

/-- the `Running` branch of `check_status` (its second `elif`): records
`stats_running_time = time_latest`, always resets `re_remind_counter` to
0, and synthesizes a fallback `print_on` when the stored on-time predates
both the done-time and the off-time; `sent_running` is `True` on this
branch.  Returns the updated config and the pair
`(sent_on, sent_running)`. -/
def runningBranch (c : St) (timeLatest latestTotal now : ℚ)
    (acks : Target → Bool) (suppress : Bool) : St × Bool × Bool :=
  let c1 := { c with
    statsRunning := { c.statsRunning with time := timeLatest },
    re_remind_counter := 0 }
  if c1.statsOn.time < c1.statsDone.time ∧ c1.statsOn.time < c1.statsOff.time then
    let r := printOn c1 timeLatest latestTotal now acks suppress
    (r.st, r.ret, true)
  else
    (c1, false, true)

/-- median of a nonempty list of rationals, as `statistics.median`:
sort ascending; odd length takes the middle element, even length the
mean of the two middle elements. -/
def medianQ (ps : List ℚ) : ℚ :=
  let s := ps.mergeSort (fun a b => a ≤ b)
  let n := ps.length
  if n % 2 = 1 then s.getD (n / 2) 0
  else (s.getD (n / 2 - 1) 0 + s.getD (n / 2) 0) / 2

/-- which branch of the `check_status` classification chain fires; the
constructors name the flag (`sent_on` … `sent_running`) or
`fall_through` set on that branch. -/
inductive Branch where
  | sentOn
  | sentRunning
  | sentOff
  | sentDone
  | fallThrough
deriving DecidableEq, Repr

/-- the classification chain of `check_status` over the extracted power
window `power_list` (chronological order): `Starting` when every sample
but the last is `≤ off_power` and the last is `> off_power`; else
`Running` when every sample is `≥ max_idle_power`; else `Off` when the
median is `≤ off_power`; else `Done` when the median lies in
`[off_power, max_idle_power]`; else fall-through. -/
def classifyBranch (powerList : List ℚ) (offPower maxIdlePower : ℚ) : Branch :=
  if (∀ p ∈ powerList.dropLast, p ≤ offPower) ∧ offPower < powerList.getLastD 0 then
    .sentOn
  else if ∀ p ∈ powerList, maxIdlePower ≤ p then
    .sentRunning
  else if medianQ powerList ≤ offPower then
    .sentOff
  else if offPower ≤ medianQ powerList ∧ medianQ powerList ≤ maxIdlePower then
    .sentDone
  else
    .fallThrough

/-- a primitive file-system effect performed by `save_config` on the
persisted document: `open(json_name, mode='w')` truncates the file in
place, then `file.write(dump)` stores the serialized document. -/
inductive FsOp where
  | openTruncate
  | writeAll (content : String)
deriving DecidableEq, Repr

/-- effect of one operation on the stored file (`none` = file absent). -/
def fsApply (_file : Option String) : FsOp → Option String
  | .openTruncate => some ""
  | .writeAll s => some s

/-- the effect trace of `Config.save_config`: open the target path with
mode `'w'` (truncating whatever is there), then write the JSON dump.
There is no temporary file and no rename. -/
def saveConfigOps (dump : String) : List FsOp := [.openTruncate, .writeAll dump]

/-- final file state after running a list of operations. -/
def fsRun (file : Option String) (ops : List FsOp) : Option String :=
  ops.foldl fsApply file

/-- every file state a crash could expose while the operations run
(before the first, between any two, after the last). -/
def fsStates (file : Option String) : List FsOp → List (Option String)
  | [] => [file]
  | op :: rest => file :: fsStates (fsApply file op) rest

/-- a save of `dump` is atomic when, from any prior file state, every
crash-exposed intermediate state is either the untouched prior state or
the completed new document. -/
def SaveAtomic (dump : String) : Prop :=
  ∀ init state, state ∈ fsStates init (saveConfigOps dump) →
    state = init ∨ state = some dump

/-- a JSON value as `json.loads` produces it (the scalar payloads the
persisted document uses, and objects as key-value lists in insertion
order, keys unique as CPython guarantees). -/
inductive JVal where
  | str (s : String)
  | num (q : ℚ)
  | bool (b : Bool)
  | obj (entries : List (String × JVal))

/-- a JSON object: its entries in insertion order. -/
abbrev JObj := List (String × JVal)

/-- whether a value is an object (a Python `dict`, as tested by
`isinstance(default_value, dict)`). -/
def JVal.isObj : JVal → Bool
  | .obj _ => true
  | _ => false

/-- `config[k]` lookup (first matching key). -/
def lookupJ : JObj → String → Option JVal
  | [], _ => none
  | (k1, v) :: rest, k => if k1 = k then some v else lookupJ rest k

/-- `config[k] = v` on a Python dict: overwrite in place if the key
exists, append otherwise. -/
def setKey : JObj → String → JVal → JObj
  | [], k, v => [(k, v)]
  | (k1, v1) :: rest, k, v =>
      if k1 = k then (k, v) :: rest else (k1, v1) :: setKey rest k v

mutual

/-- one iteration of the `update_dict_recursive` loop body for the
default entry `(k, dv)`: a `dict` default recurses into `config[k]`
(inserting `{}` first when the key is absent; the recursive call passes
`reset` as its default `False`), a scalar default is written through
`config.get(k, dv)` (or unconditionally under `reset`).  `none` models
the `TypeError` Python raises when `config[k]` holds a scalar but the
default is a non-empty `dict` (iterating / item-assigning a non-dict). -/
def updVal (config : JObj) (k : String) (dv : JVal) (reset : Bool) : Option JObj :=
  match dv with
  | .obj dsub =>
      let c1 := if (lookupJ config k).isSome then config else setKey config k (.obj [])
      match lookupJ c1 k with
      | some (.obj csub) =>
          (updObj csub dsub false).map (fun merged => setKey c1 k (.obj merged))
      | some other => if dsub.isEmpty then some (setKey c1 k other) else none
      | none => none
  | _ =>
      if reset then some (setKey config k dv)
      else some (setKey config k ((lookupJ config k).getD dv))

/-- `update_dict_recursive(config, default, reset)`: fold the loop body
over the default entries in order. -/
def updObj (config : JObj) (default : JObj) (reset : Bool) : Option JObj :=
  match default with
  | [] => some config
  | (k, dv) :: rest =>
      match updVal config k dv reset with
      | none => none
      | some c1 => updObj c1 rest reset

end

mutual

/-- keys of an object are pairwise distinct, recursively (holds for any
document produced by `json.loads` and for the hardcoded defaults). -/
def nodupKeys : JObj → Bool
  | [] => true
  | (k, v) :: rest =>
      (rest.all (fun e => e.1 ≠ k)) && nodupKeysVal v && nodupKeys rest

/-- recursive key-uniqueness inside one value. -/
def nodupKeysVal : JVal → Bool
  | .obj entries => nodupKeys entries
  | _ => true

end

/-- the default `notification` urgency map of one regime. -/
def defaultNotif (serverMail todo joPrivate : ℚ) : JVal :=
  .obj [("server-mail", .num serverMail), ("todo", .num todo),
        ("jo_private", .num joPrivate)]

/-- the default per-regime stats record
(`datetime.datetime.min.isoformat()` timestamps, zero energy). -/
def defaultStats (serverMail todo joPrivate : ℚ) : JVal :=
  .obj [("time", .str "0001-01-01T00:00:00"),
        ("last_sent", .str "0001-01-01T00:00:00"),
        ("power_total", .num 0),
        ("notification", defaultNotif serverMail todo joPrivate)]

/-- the hardcoded `default` document of `Config.load_config`. -/
def defaultConfig : JObj :=
  [("off_power", .num 0),
   ("max_idle_power", .num 5),
   ("min_runtime_minutes", .num 20),
   ("min_data_window_minutes", .num (9 / 10)),
   ("re_remind", .bool false),
   ("stats", .obj
     [("on", defaultStats 1 0 0),
      ("running", defaultStats 0 0 0),
      ("done", defaultStats 1 1 2),
      ("off", defaultStats 1 0 0)])]

/-- the merge preserves a stored value: scalars survive unchanged, and a
stored object survives as an object whose stored keys all survive,
recursively. -/
inductive PreservesVal : JVal → JVal → Prop
  | scalar (v w : JVal) (hv : v.isObj = false) (hw : w = v) : PreservesVal v w
  | obj (entries entries2 : List (String × JVal))
      (hdom : ∀ k, (lookupJ entries k).isSome → (lookupJ entries2 k).isSome)
      (h : ∀ k v w, lookupJ entries k = some v → lookupJ entries2 k = some w →
        PreservesVal v w) :
      PreservesVal (.obj entries) (.obj entries2)

/-- object-level preservation: every stored key is still present and its
value is preserved. -/
def PreservesObj (o o2 : JObj) : Prop :=
  (∀ k, (lookupJ o k).isSome → (lookupJ o2 k).isSome) ∧
  (∀ k v w, lookupJ o k = some v → lookupJ o2 k = some w → PreservesVal v w)

/-- a concrete persisted state used to evaluate the forced-resend path of
`print_done`: re-remind enabled, counter 0, a run that ended long ago
(`Done.last_sent = 2000` is newer than both on-time 1000 and off-time
900), default 20-minute runtime guard, 1-minute data window. -/
def exampleDoneState : St :=
  ⟨0, 5, 20, 1, true, 0,
   ⟨1000, 0, 0, 1, 0, 0⟩, ⟨900, 0, 0, 1, 0, 0⟩,
   ⟨1500, 2000, 0, 1, 1, 2⟩, ⟨2000, 0, 0, 0, 0, 0⟩⟩

/-- a concrete state on which `print_on` fires: never notified
(`On.last_sent = 0 = datetime.min`) and an Off happened at time 50. -/
def exampleOnState : St :=
  ⟨0, 5, 20, 9 / 10, false, 2,
   ⟨10, 0, 1, 1, 0, 0⟩, ⟨50, 0, 0, 1, 0, 0⟩,
   ⟨0, 0, 0, 1, 1, 2⟩, ⟨60, 0, 0, 0, 0, 0⟩⟩

/-- a concrete state for the `print_off` debounce scenario of the spec:
the current run started at on-time 1000, `min_runtime` is 20 minutes,
the off notification was last sent at 500 (before this run), and the
device was last seen actively running at 2400. -/
def exampleOffState : St :=
  ⟨0, 5, 20, 9 / 10, false, 3,
   ⟨1000, 0, 0, 1, 0, 0⟩, ⟨20, 500, 0, 1, 0, 0⟩,
   ⟨0, 0, 0, 1, 1, 2⟩, ⟨2400, 0, 0, 0, 0, 0⟩⟩

/-- a concrete state on which `print_done` sends its first Done
notification (`re_remind_counter = 0`, never sent before). -/
def exampleFirstDoneState : St :=
  ⟨0, 5, 20, 1, false, 0,
   ⟨1000, 0, 0, 1, 0, 0⟩, ⟨900, 0, 0, 1, 0, 0⟩,
   ⟨1500, 0, 0, 1, 1, 2⟩, ⟨2000, 0, 0, 0, 0, 0⟩⟩

/-- like `exampleOffState` but with two urgency-positive off targets
(`server-mail` muted, `todo` with alert), for the partial-delivery
scenario. -/
def exampleTwoTargetState : St :=
  ⟨0, 5, 20, 9 / 10, false, 0,
   ⟨1000, 0, 0, 1, 0, 0⟩, ⟨20, 500, 0, 1, 2, 0⟩,
   ⟨0, 0, 0, 1, 1, 2⟩, ⟨2400, 0, 0, 0, 0, 0⟩⟩

/-- a transport in which `server-mail` acknowledges and every other
target fails — a partial delivery. -/
def acksPartial : Target → Bool
  | .serverMail => true
  | _ => false

/-- a concrete stored document: a manually added display name plus an
off-power override; everything else is missing. -/
def exampleDoc : JObj :=
  [("device_name", .str "WMS"), ("off_power", .num 3)]

/-- what merging `exampleDoc` with the defaults produces: stored keys
kept in place with their stored values, missing defaults appended in
default order, the `stats` object filled entirely from the defaults. -/
def exampleDocMerged : JObj :=
  [("device_name", .str "WMS"), ("off_power", .num 3),
   ("max_idle_power", .num 5),
   ("min_runtime_minutes", .num 20),
   ("min_data_window_minutes", .num (9 / 10)),
   ("re_remind", .bool false),
   ("stats", .obj
     [("on", defaultStats 1 0 0),
      ("running", defaultStats 0 0 0),
      ("done", defaultStats 1 1 2),
      ("off", defaultStats 1 0 0)])]

theorem Qrt5.conj_mul (x y : Qrt5) : (x.mul y).conj = x.conj.mul y.conj := by
  simp only [Qrt5.mul, Qrt5.conj, Qrt5.mk.injEq]
  constructor <;> ring

theorem psiQ_pow_eq_conj (n : ℕ) : psiQ.pow n = (phiQ.pow n).conj := by
  induction n with
  | zero => rfl
  | succ n ih =>
      simp only [Qrt5.pow, ih]
      rw [show psiQ = phiQ.conj from rfl, ← Qrt5.conj_mul]

/-- the expression `(p^n - q^n)/√5` inside `fib` is a plain rational:
its √5-component vanishes, so reading off the rational part in `fib` is
exact. -/
theorem fib_sqrt5_part_eq_zero (n : ℕ) :
    ((phiQ.pow n).sub (psiQ.pow n)).divSqrt5.b = 0 := by
  simp [Qrt5.divSqrt5, Qrt5.sub, psiQ_pow_eq_conj, Qrt5.conj]

theorem printOn_not_fire (c : St) (t total now : ℚ) (acks : Target → Bool) (s : Bool)
    (h : ¬ (c.statsOn.last_sent < t ∧
      c.statsOn.last_sent < max c.statsOff.time c.statsDone.time)) :
    printOn c t total now acks s = ⟨c, false, []⟩ := by
  by_cases hA : c.statsOn.last_sent ≥ t
  · simp only [printOn]
    rw [if_pos hA]
  · have hB : max c.statsOff.time c.statsDone.time ≤ c.statsOn.last_sent := by
      rcases not_and_or.mp h with hA2 | hB2
      · exact absurd (not_le.mp hA) hA2
      · exact not_lt.mp hB2
    simp only [printOn]
    rw [if_neg hA, if_pos hB]

theorem printOn_fire (c : St) (t total now : ℚ) (acks : Target → Bool) (s : Bool)
    (h1 : c.statsOn.last_sent < t)
    (h2 : c.statsOn.last_sent < max c.statsOff.time c.statsDone.time) :
    printOn c t total now acks s =
      ⟨{ c with
          statsOn :=
            ⟨t,
             (if ((if s then [] else onAttemptList c.statsOn).all acks)
              then now else c.statsOn.last_sent),
             total, c.statsOn.notifServerMail, c.statsOn.notifTodo,
             c.statsOn.notifJoPrivate⟩,
          re_remind_counter := 0 },
        true, if s then [] else onAttemptList c.statsOn⟩ := by
  simp only [printOn]
  rw [if_neg (not_le.mpr h1), if_neg (not_le.mpr h2)]
  have hA : onAttemptList { c.statsOn with time := t, power_total := total } =
      onAttemptList c.statsOn := rfl
  by_cases hok : ((if s then [] else onAttemptList c.statsOn).all acks) = true
  · simp [hA, hok]
  · simp [hA, hok]

theorem printOff_tooShort (c : St) (t total now : ℚ) (acks : Target → Bool) (s : Bool)
    (h : t - max c.statsOn.time c.statsDone.time < c.minRuntime) :
    printOff c t total now acks s = ⟨c, false, []⟩ := by
  simp only [printOff]
  rw [if_pos h]

theorem printOff_dataWindow (c : St) (t total now : ℚ) (acks : Target → Bool) (s : Bool)
    (h1 : ¬ t - max c.statsOn.time c.statsDone.time < c.minRuntime)
    (h2 : t - c.statsRunning.time < c.minDataWindow) :
    printOff c t total now acks s = ⟨c, false, []⟩ := by
  simp only [printOff]
  rw [if_neg h1, if_pos h2]

theorem printOff_alreadySent (c : St) (t total now : ℚ) (acks : Target → Bool) (s : Bool)
    (h1 : ¬ t - max c.statsOn.time c.statsDone.time < c.minRuntime)
    (h2 : ¬ t - c.statsRunning.time < c.minDataWindow)
    (h3 : max c.statsOn.time c.statsDone.time ≤ c.statsOff.last_sent) :
    printOff c t total now acks s = ⟨c, false, []⟩ := by
  simp only [printOff]
  rw [if_neg h1, if_neg h2, if_pos h3]

theorem printOff_send (c : St) (t total now : ℚ) (acks : Target → Bool) (s : Bool)
    (h1 : ¬ t - max c.statsOn.time c.statsDone.time < c.minRuntime)
    (h2 : ¬ t - c.statsRunning.time < c.minDataWindow)
    (h3 : c.statsOff.last_sent < max c.statsOn.time c.statsDone.time)
    (h4 : yearEqOne c.statsOff.last_sent = true ∨ c.statsOff.last_sent < t) :
    printOff c t total now acks s =
      ⟨{ c with
          statsOff :=
            ⟨t,
             (if ((if s then [] else offAttemptList c.statsOff).all acks)
              then now else c.statsOff.last_sent),
             total, c.statsOff.notifServerMail, c.statsOff.notifTodo,
             c.statsOff.notifJoPrivate⟩,
          re_remind_counter := 0 },
        true, if s then [] else offAttemptList c.statsOff⟩ := by
  simp only [printOff]
  rw [if_neg h1, if_neg h2, if_neg (not_le.mpr h3)]
  have hA : offAttemptList { c.statsOff with time := t, power_total := total } =
      offAttemptList c.statsOff := rfl
  have hS : (yearEqOne c.statsOff.last_sent || decide (c.statsOff.last_sent < t)) = true := by
    rcases h4 with h | h
    · simp [h]
    · simp [h]
  by_cases hok : ((if s then [] else offAttemptList c.statsOff).all acks) = true
  · simp [hA, hok, hS]
  · simp [hA, hok, hS]





theorem printOff_noSendMsg (c : St) (t total now : ℚ) (acks : Target → Bool) (s : Bool)
    (h1 : ¬ t - max c.statsOn.time c.statsDone.time < c.minRuntime)
    (h2 : ¬ t - c.statsRunning.time < c.minDataWindow)
    (h3 : c.statsOff.last_sent < max c.statsOn.time c.statsDone.time)
    (h4 : yearEqOne c.statsOff.last_sent = false)
    (h5 : t ≤ c.statsOff.last_sent) :
    printOff c t total now acks s =
      ⟨{ c with
          statsOff :=
            ⟨t, c.statsOff.last_sent, total, c.statsOff.notifServerMail,
             c.statsOff.notifTodo, c.statsOff.notifJoPrivate⟩ },
        false, []⟩ := by
  simp only [printOff]
  rw [if_neg h1, if_neg h2, if_neg (not_le.mpr h3)]
  simp [h4, not_lt.mpr h5]

theorem printDone_tooShort (c : St) (t total now : ℚ) (acks : Target → Bool) (s : Bool)
    (h : t - max c.statsOn.time c.statsOff.time < c.minRuntime) :
    printDone c t total now acks s = ⟨c, false, []⟩ := by
  simp only [printDone]
  rw [if_pos h]

theorem printDone_dataWindow (c : St) (t total now : ℚ) (acks : Target → Bool) (s : Bool)
    (h1 : ¬ t - max c.statsOn.time c.statsOff.time < c.minRuntime)
    (h2 : t - c.statsRunning.time < c.minDataWindow) :
    printDone c t total now acks s = ⟨c, false, []⟩ := by
  simp only [printDone]
  rw [if_neg h1, if_pos h2]

theorem printDone_suppressed (c : St) (t total now : ℚ) (acks : Target → Bool) (s : Bool)
    (h1 : ¬ t - max c.statsOn.time c.statsOff.time < c.minRuntime)
    (h2 : ¬ t - c.statsRunning.time < c.minDataWindow)
    (h3 : max c.statsOn.time c.statsOff.time ≤ c.statsDone.last_sent)
    (h4 : ¬ doneReRemindNow c t) :
    printDone c t total now acks s = ⟨c, false, []⟩ := by
  simp only [printDone]
  rw [if_neg h1, if_neg h2, if_pos ⟨h3, h4⟩]

theorem printDone_send_first (c : St) (t total now : ℚ) (acks : Target → Bool) (s : Bool)
    (hc : c.re_remind_counter = 0)
    (h1 : ¬ t - max c.statsOn.time c.statsOff.time < c.minRuntime)
    (h2 : ¬ t - c.statsRunning.time < c.minDataWindow)
    (h3 : ¬ (max c.statsOn.time c.statsOff.time ≤ c.statsDone.last_sent ∧
      ¬ doneReRemindNow c t))
    (h4 : yearEqOne c.statsDone.last_sent = true ∨ c.statsDone.last_sent < t ∨
      doneReRemindNow c t) :
    printDone c t total now acks s =
      ⟨{ c with
          statsDone :=
            ⟨t,
             (if ((if s then [] else doneAttemptList c.statsDone false).all acks)
              then now else c.statsDone.last_sent),
             total, c.statsDone.notifServerMail, c.statsDone.notifTodo,
             c.statsDone.notifJoPrivate⟩,
          re_remind_counter :=
            (if ((if s then [] else doneAttemptList c.statsDone false).all acks)
             then 1 else 0) },
        true, if s then [] else doneAttemptList c.statsDone false⟩ := by
  simp only [printDone]
  rw [if_neg h1, if_neg h2, if_neg h3, if_pos hc]
  have hrem : (decide (doneReRemindNow c t ∧ 0 < c.re_remind_counter)) = false := by
    simp [hc]
  have hA : doneAttemptList
      ⟨t, c.statsDone.last_sent, total, c.statsDone.notifServerMail,
       c.statsDone.notifTodo, c.statsDone.notifJoPrivate⟩ false =
      doneAttemptList c.statsDone false := rfl
  have hS : (yearEqOne c.statsDone.last_sent = true ∨ c.statsDone.last_sent < t ∨
      doneReRemindNow c t) := h4
  by_cases hok : ((if s then [] else doneAttemptList c.statsDone false).all acks) = true
  · simp [hrem, hA, hok, hc, hS]
  · simp [hrem, hA, hok, hc, hS]

theorem printDone_send_later (c : St) (t total now : ℚ) (acks : Target → Bool) (s : Bool)
    (hc : c.re_remind_counter ≠ 0)
    (h1 : ¬ t - max c.statsOn.time c.statsOff.time < c.minRuntime)
    (h2 : ¬ t - c.statsRunning.time < c.minDataWindow)
    (h3 : ¬ (max c.statsOn.time c.statsOff.time ≤ c.statsDone.last_sent ∧
      ¬ doneReRemindNow c t))
    (h4 : yearEqOne c.statsDone.last_sent = true ∨
      c.statsDone.last_sent < c.statsDone.time ∨ doneReRemindNow c t) :
    printDone c t total now acks s =
      ⟨{ c with
          statsDone :=
            ⟨c.statsDone.time,
             (if ((if s then [] else doneAttemptList c.statsDone
                 (decide (doneReRemindNow c t ∧ 0 < c.re_remind_counter))).all acks)
              then now else c.statsDone.last_sent),
             c.statsDone.power_total, c.statsDone.notifServerMail,
             c.statsDone.notifTodo, c.statsDone.notifJoPrivate⟩,
          re_remind_counter :=
            (if ((if s then [] else doneAttemptList c.statsDone
                 (decide (doneReRemindNow c t ∧ 0 < c.re_remind_counter))).all acks)
             then c.re_remind_counter + 1 else c.re_remind_counter) },
        true,
        if s then [] else doneAttemptList c.statsDone
          (decide (doneReRemindNow c t ∧ 0 < c.re_remind_counter))⟩ := by
  simp only [printDone]
  rw [if_neg h1, if_neg h2, if_neg h3, if_neg hc]
  by_cases hok : ((if s then [] else doneAttemptList c.statsDone
      (decide (doneReRemindNow c t ∧ 0 < c.re_remind_counter))).all acks) = true
  · rw [if_neg (not_not_intro h4)]
    simp only [hok, if_true, if_pos trivial]
  · rw [if_neg (not_not_intro h4)]
    simp only [if_neg hok]

theorem printDone_noSendMsg_first (c : St) (t total now : ℚ) (acks : Target → Bool)
    (s : Bool) (hc : c.re_remind_counter = 0)
    (h1 : ¬ t - max c.statsOn.time c.statsOff.time < c.minRuntime)
    (h2 : ¬ t - c.statsRunning.time < c.minDataWindow)
    (h3 : ¬ (max c.statsOn.time c.statsOff.time ≤ c.statsDone.last_sent ∧
      ¬ doneReRemindNow c t))
    (h4 : ¬ (yearEqOne c.statsDone.last_sent = true ∨ c.statsDone.last_sent < t ∨
      doneReRemindNow c t)) :
    printDone c t total now acks s =
      ⟨{ c with
          statsDone :=
            ⟨t, c.statsDone.last_sent, total, c.statsDone.notifServerMail,
             c.statsDone.notifTodo, c.statsDone.notifJoPrivate⟩ },
        false, []⟩ := by
  simp only [printDone]
  rw [if_neg h1, if_neg h2, if_neg h3, if_pos hc, if_pos h4]

theorem printDone_noSendMsg_later (c : St) (t total now : ℚ) (acks : Target → Bool)
    (s : Bool) (hc : c.re_remind_counter ≠ 0)
    (h1 : ¬ t - max c.statsOn.time c.statsOff.time < c.minRuntime)
    (h2 : ¬ t - c.statsRunning.time < c.minDataWindow)
    (h3 : ¬ (max c.statsOn.time c.statsOff.time ≤ c.statsDone.last_sent ∧
      ¬ doneReRemindNow c t))
    (h4 : ¬ (yearEqOne c.statsDone.last_sent = true ∨
      c.statsDone.last_sent < c.statsDone.time ∨ doneReRemindNow c t)) :
    printDone c t total now acks s = ⟨c, false, []⟩ := by
  simp only [printDone]
  rw [if_neg h1, if_neg h2, if_neg h3, if_neg hc, if_pos h4]


theorem printOff_last_sent_true (c : St) (t total now : ℚ) (acks : Target → Bool)
    (s : Bool) (hret : (printOff c t total now acks s).ret = true) :
    (printOff c t total now acks s).st.statsOff.last_sent =
      (if (printOff c t total now acks s).attempted.all acks then now
       else c.statsOff.last_sent) := by
  by_cases h1 : t - max c.statsOn.time c.statsDone.time < c.minRuntime
  · rw [printOff_tooShort c t total now acks s h1] at hret
    simp at hret
  by_cases h2 : t - c.statsRunning.time < c.minDataWindow
  · rw [printOff_dataWindow c t total now acks s h1 h2] at hret
    simp at hret
  by_cases h3 : max c.statsOn.time c.statsDone.time ≤ c.statsOff.last_sent
  · rw [printOff_alreadySent c t total now acks s h1 h2 h3] at hret
    simp at hret
  have h3' : c.statsOff.last_sent < max c.statsOn.time c.statsDone.time :=
    not_le.mp h3
  by_cases h4 : yearEqOne c.statsOff.last_sent = true ∨ c.statsOff.last_sent < t
  · rw [printOff_send c t total now acks s h1 h2 h3' h4]
  · push_neg at h4
    rw [printOff_noSendMsg c t total now acks s h1 h2 h3'
      (Bool.not_eq_true _ ▸ h4.1 : yearEqOne c.statsOff.last_sent = false)
      h4.2] at hret
    simp at hret





theorem printOn_false_eq (c : St) (t total now : ℚ) (acks : Target → Bool)
    (s : Bool) (hret : (printOn c t total now acks s).ret = false) :
    printOn c t total now acks s = ⟨c, false, []⟩ := by
  by_cases hg : c.statsOn.last_sent < t ∧
      c.statsOn.last_sent < max c.statsOff.time c.statsDone.time
  · rw [printOn_fire c t total now acks s hg.1 hg.2] at hret
    simp at hret
  · exact printOn_not_fire c t total now acks s hg

theorem printOn_last_sent_true (c : St) (t total now : ℚ) (acks : Target → Bool)
    (s : Bool) (hret : (printOn c t total now acks s).ret = true) :
    (printOn c t total now acks s).st.statsOn.last_sent =
      (if (printOn c t total now acks s).attempted.all acks then now
       else c.statsOn.last_sent) := by
  by_cases hg : c.statsOn.last_sent < t ∧
      c.statsOn.last_sent < max c.statsOff.time c.statsDone.time
  · rw [printOn_fire c t total now acks s hg.1 hg.2]
  · rw [printOn_not_fire c t total now acks s hg] at hret
    simp at hret

theorem printOn_counter_true (c : St) (t total now : ℚ) (acks : Target → Bool)
    (s : Bool) (hret : (printOn c t total now acks s).ret = true) :
    (printOn c t total now acks s).st.re_remind_counter = 0 := by
  by_cases hg : c.statsOn.last_sent < t ∧
      c.statsOn.last_sent < max c.statsOff.time c.statsDone.time
  · rw [printOn_fire c t total now acks s hg.1 hg.2]
  · rw [printOn_not_fire c t total now acks s hg] at hret
    simp at hret

theorem printOff_false_st (c : St) (t total now : ℚ) (acks : Target → Bool)
    (s : Bool) (hret : (printOff c t total now acks s).ret = false) :
    (printOff c t total now acks s).st.statsOff.last_sent =
      c.statsOff.last_sent ∧
    (printOff c t total now acks s).st.re_remind_counter =
      c.re_remind_counter := by
  by_cases h1 : t - max c.statsOn.time c.statsDone.time < c.minRuntime
  · rw [printOff_tooShort c t total now acks s h1]
    exact ⟨rfl, rfl⟩
  by_cases h2 : t - c.statsRunning.time < c.minDataWindow
  · rw [printOff_dataWindow c t total now acks s h1 h2]
    exact ⟨rfl, rfl⟩
  by_cases h3 : max c.statsOn.time c.statsDone.time ≤ c.statsOff.last_sent
  · rw [printOff_alreadySent c t total now acks s h1 h2 h3]
    exact ⟨rfl, rfl⟩
  have h3' : c.statsOff.last_sent < max c.statsOn.time c.statsDone.time :=
    not_le.mp h3
  by_cases h4 : yearEqOne c.statsOff.last_sent = true ∨ c.statsOff.last_sent < t
  · rw [printOff_send c t total now acks s h1 h2 h3' h4] at hret
    simp at hret
  · push_neg at h4
    rw [printOff_noSendMsg c t total now acks s h1 h2 h3'
      (Bool.not_eq_true _ ▸ h4.1 : yearEqOne c.statsOff.last_sent = false) h4.2]
    exact ⟨rfl, rfl⟩

theorem printOff_counter_true (c : St) (t total now : ℚ) (acks : Target → Bool)
    (s : Bool) (hret : (printOff c t total now acks s).ret = true) :
    (printOff c t total now acks s).st.re_remind_counter = 0 := by
  by_cases h1 : t - max c.statsOn.time c.statsDone.time < c.minRuntime
  · rw [printOff_tooShort c t total now acks s h1] at hret
    simp at hret
  by_cases h2 : t - c.statsRunning.time < c.minDataWindow
  · rw [printOff_dataWindow c t total now acks s h1 h2] at hret
    simp at hret
  by_cases h3 : max c.statsOn.time c.statsDone.time ≤ c.statsOff.last_sent
  · rw [printOff_alreadySent c t total now acks s h1 h2 h3] at hret
    simp at hret
  have h3' : c.statsOff.last_sent < max c.statsOn.time c.statsDone.time :=
    not_le.mp h3
  by_cases h4 : yearEqOne c.statsOff.last_sent = true ∨ c.statsOff.last_sent < t
  · rw [printOff_send c t total now acks s h1 h2 h3' h4]
  · push_neg at h4
    rw [printOff_noSendMsg c t total now acks s h1 h2 h3'
      (Bool.not_eq_true _ ▸ h4.1 : yearEqOne c.statsOff.last_sent = false)
      h4.2] at hret
    simp at hret

theorem printDone_last_sent_true (c : St) (t total now : ℚ) (acks : Target → Bool)
    (s : Bool) (hret : (printDone c t total now acks s).ret = true) :
    (printDone c t total now acks s).st.statsDone.last_sent =
      (if (printDone c t total now acks s).attempted.all acks then now
       else c.statsDone.last_sent) := by
  by_cases h1 : t - max c.statsOn.time c.statsOff.time < c.minRuntime
  · rw [printDone_tooShort c t total now acks s h1] at hret
    simp at hret
  by_cases h2 : t - c.statsRunning.time < c.minDataWindow
  · rw [printDone_dataWindow c t total now acks s h1 h2] at hret
    simp at hret
  by_cases h3 : max c.statsOn.time c.statsOff.time ≤ c.statsDone.last_sent ∧
      ¬ doneReRemindNow c t
  · rw [printDone_suppressed c t total now acks s h1 h2 h3.1 h3.2] at hret
    simp at hret
  by_cases hc : c.re_remind_counter = 0
  · by_cases h4 : yearEqOne c.statsDone.last_sent = true ∨
        c.statsDone.last_sent < t ∨ doneReRemindNow c t
    · rw [printDone_send_first c t total now acks s hc h1 h2 h3 h4]
    · rw [printDone_noSendMsg_first c t total now acks s hc h1 h2 h3 h4] at hret
      simp at hret
  · by_cases h4 : yearEqOne c.statsDone.last_sent = true ∨
        c.statsDone.last_sent < c.statsDone.time ∨ doneReRemindNow c t
    · rw [printDone_send_later c t total now acks s hc h1 h2 h3 h4]
    · rw [printDone_noSendMsg_later c t total now acks s hc h1 h2 h3 h4] at hret
      simp at hret

theorem printDone_counter_true (c : St) (t total now : ℚ) (acks : Target → Bool)
    (s : Bool) (hret : (printDone c t total now acks s).ret = true) :
    (printDone c t total now acks s).st.re_remind_counter =
      (if (printDone c t total now acks s).attempted.all acks
       then c.re_remind_counter + 1 else c.re_remind_counter) := by
  by_cases h1 : t - max c.statsOn.time c.statsOff.time < c.minRuntime
  · rw [printDone_tooShort c t total now acks s h1] at hret
    simp at hret
  by_cases h2 : t - c.statsRunning.time < c.minDataWindow
  · rw [printDone_dataWindow c t total now acks s h1 h2] at hret
    simp at hret
  by_cases h3 : max c.statsOn.time c.statsOff.time ≤ c.statsDone.last_sent ∧
      ¬ doneReRemindNow c t
  · rw [printDone_suppressed c t total now acks s h1 h2 h3.1 h3.2] at hret
    simp at hret
  by_cases hc : c.re_remind_counter = 0
  · by_cases h4 : yearEqOne c.statsDone.last_sent = true ∨
        c.statsDone.last_sent < t ∨ doneReRemindNow c t
    · rw [printDone_send_first c t total now acks s hc h1 h2 h3 h4]
      rw [hc]
    · rw [printDone_noSendMsg_first c t total now acks s hc h1 h2 h3 h4] at hret
      simp at hret
  · by_cases h4 : yearEqOne c.statsDone.last_sent = true ∨
        c.statsDone.last_sent < c.statsDone.time ∨ doneReRemindNow c t
    · rw [printDone_send_later c t total now acks s hc h1 h2 h3 h4]
    · rw [printDone_noSendMsg_later c t total now acks s hc h1 h2 h3 h4] at hret
      simp at hret

theorem printDone_false_st (c : St) (t total now : ℚ) (acks : Target → Bool)
    (s : Bool) (hret : (printDone c t total now acks s).ret = false) :
    (printDone c t total now acks s).st.statsDone.last_sent =
      c.statsDone.last_sent ∧
    (printDone c t total now acks s).st.re_remind_counter =
      c.re_remind_counter := by
  by_cases h1 : t - max c.statsOn.time c.statsOff.time < c.minRuntime
  · rw [printDone_tooShort c t total now acks s h1]
    exact ⟨rfl, rfl⟩
  by_cases h2 : t - c.statsRunning.time < c.minDataWindow
  · rw [printDone_dataWindow c t total now acks s h1 h2]
    exact ⟨rfl, rfl⟩
  by_cases h3 : max c.statsOn.time c.statsOff.time ≤ c.statsDone.last_sent ∧
      ¬ doneReRemindNow c t
  · rw [printDone_suppressed c t total now acks s h1 h2 h3.1 h3.2]
    exact ⟨rfl, rfl⟩
  by_cases hc : c.re_remind_counter = 0
  · by_cases h4 : yearEqOne c.statsDone.last_sent = true ∨
        c.statsDone.last_sent < t ∨ doneReRemindNow c t
    · rw [printDone_send_first c t total now acks s hc h1 h2 h3 h4] at hret
      simp at hret
    · rw [printDone_noSendMsg_first c t total now acks s hc h1 h2 h3 h4]
      exact ⟨rfl, rfl⟩
  · by_cases h4 : yearEqOne c.statsDone.last_sent = true ∨
        c.statsDone.last_sent < c.statsDone.time ∨ doneReRemindNow c t
    · rw [printDone_send_later c t total now acks s hc h1 h2 h3 h4] at hret
      simp at hret
    · rw [printDone_noSendMsg_later c t total now acks s hc h1 h2 h3 h4]
      exact ⟨rfl, rfl⟩

theorem offRetry (c : St) (t total now : ℚ) (acks : Target → Bool) :
    ∀ (total2 now2 : ℚ),
      0 ≤ c.min_runtime_minutes →
      c.minRuntime ≤ t - max c.statsOn.time c.statsDone.time →
      c.minDataWindow ≤ t - c.statsRunning.time →
      c.statsOff.last_sent < max c.statsOn.time c.statsDone.time →
      (printOff c t total now acks false).attempted.all acks = false →
      (printOff (printOff c t total now acks false).st t total2 now2 acks
          false).ret = true ∧
      (printOff (printOff c t total now acks false).st t total2 now2 acks
          false).attempted = (printOff c t total now acks false).attempted := by
  intro total2 now2 h0 hrt hdw hls hfail
  have hmr : (0 : ℚ) ≤ c.minRuntime := mul_nonneg h0 (by norm_num)
  have hlt : c.statsOff.last_sent < t := lt_of_lt_of_le hls (by linarith)
  rw [printOff_send c t total now acks false (not_lt.mpr hrt) (not_lt.mpr hdw) hls
    (Or.inr hlt)] at hfail ⊢
  dsimp only at hfail ⊢
  have hfail2 : (offAttemptList c.statsOff).all acks = false := by
    simpa using hfail
  rw [if_neg (by simp [hfail2] : ¬ ((if false then [] else
    offAttemptList c.statsOff).all acks = true))]
  rw [printOff_send _ t total2 now2 acks false (by exact not_lt.mpr hrt)
    (by exact not_lt.mpr hdw) (by exact hls) (by exact Or.inr hlt)]
  exact ⟨rfl, rfl⟩

/-- C9: the closed-form `fib` agrees with the standard Fibonacci
sequence 1, 1, 2, 3, 5, 8, 13, … — term by term for `n = 1..7`, and with
Mathlib's canonical `Nat.fib` for every argument below 26. -/
theorem fib_matches_standard_sequence :
    [fib 1, fib 2, fib 3, fib 4, fib 5, fib 6, fib 7] = [1, 1, 2, 3, 5, 8, 13] ∧
    (List.range 26).map fib = (List.range 26).map (fun n => (Nat.fib n : ℤ)) := by
  constructor
  · norm_num [fib, ratTrunc, Qrt5.pow, Qrt5.mul, Qrt5.sub, Qrt5.divSqrt5, phiQ, psiQ]
  · simp only [List.range_succ, List.map_append, List.map_cons, List.map_nil,
      List.range_zero]
    norm_num [fib, ratTrunc, Qrt5.pow, Qrt5.mul, Qrt5.sub, Qrt5.divSqrt5, phiQ, psiQ,
      Nat.fib]

/-- C8: the re-remind wait `max(300, fib(counter))` is non-decreasing
over counters 0..4 and at least 300 seconds for every counter, and
whenever `print_done` proceeds although the base guard
(`last_on_or_off <= stats_done_last_sent`) would suppress a resend, the
time since `Done.last_sent` has reached that wait (with `re_remind`
enabled). -/
theorem reRemindWait_monotone_and_forced :
    (reRemindWait 0 ≤ reRemindWait 1 ∧ reRemindWait 1 ≤ reRemindWait 2 ∧
      reRemindWait 2 ≤ reRemindWait 3 ∧ reRemindWait 3 ≤ reRemindWait 4) ∧
    (∀ n : ℕ, 300 ≤ reRemindWait n) ∧
    (∀ (c : St) (t total now : ℚ) (acks : Target → Bool) (s : Bool),
      (printDone c t total now acks s).ret = true →
      max c.statsOn.time c.statsOff.time ≤ c.statsDone.last_sent →
      c.re_remind = true ∧
        ((reRemindWait c.re_remind_counter : ℤ) : ℚ) ≤ t - c.statsDone.last_sent) := by
  refine ⟨?_, fun n => le_max_left _ _, ?_⟩
  · norm_num [reRemindWait, fib, ratTrunc, Qrt5.pow, Qrt5.mul, Qrt5.sub,
      Qrt5.divSqrt5, phiQ, psiQ]
  · intro c t total now acks s hret hbase
    by_cases h1 : t - max c.statsOn.time c.statsOff.time < c.minRuntime
    · simp [printDone, h1] at hret
    · by_cases h2 : t - c.statsRunning.time < c.minDataWindow
      · simp [printDone, h1, h2] at hret
      · by_cases hrrn : doneReRemindNow c t
        · exact ⟨hrrn.1, hrrn.2⟩
        · simp [printDone, h1, h2, hbase, hrrn] at hret

/-- C8 witness: the forced-resend clause applied to `exampleDoneState`
at done-time 4000 — the base guard would suppress the resend
(`max(1000, 900) ≤ 2000`) yet the call returns `True`, and indeed
`2000 = 4000 - 2000` seconds have passed since `Done.last_sent`, at
least the 300-second wait for counter 0. -/
theorem reRemindWait_monotone_and_forced_witness :
    exampleDoneState.re_remind = true ∧
      ((reRemindWait exampleDoneState.re_remind_counter : ℤ) : ℚ) ≤
        4000 - exampleDoneState.statsDone.last_sent :=
  reRemindWait_monotone_and_forced.2.2 exampleDoneState 4000 9 4100
    (fun _ => true) false
    (by norm_num [printDone, doneReRemindNow, exampleDoneState, St.minRuntime,
        St.minDataWindow, yearEqOne, yearOneEnd, reRemindWait, fib, ratTrunc,
        Qrt5.pow, Qrt5.mul, Qrt5.sub, Qrt5.divSqrt5, phiQ, psiQ, max_def])
    (by norm_num [exampleDoneState, max_def])

/-- C1 counterexample: the claim fails as stated.  A one-sample window
`[5]` with `off_power = 0 < 5 = max_idle_power` has every sample
`≥ max_idle_power`, yet the `Starting` branch fires first (its
all-but-last condition is vacuous), so `sent_running` is not set; a
two-sample window `[0, 1]` with `max_idle_power = 0 = off_power` also
has every sample `≥ max_idle_power` but classifies `Starting`. -/
theorem classifyBranch_running_counterexample :
    (1 ≤ ([(5 : ℚ)]).length ∧ (∀ p ∈ [(5 : ℚ)], (5 : ℚ) ≤ p) ∧
      classifyBranch [(5 : ℚ)] 0 5 ≠ .sentRunning ∧
      classifyBranch [(5 : ℚ)] 0 5 = .sentOn) ∧
    (1 ≤ ([(0 : ℚ), 1]).length ∧ (∀ p ∈ [(0 : ℚ), 1], (0 : ℚ) ≤ p) ∧
      classifyBranch [(0 : ℚ), 1] 0 0 ≠ .sentRunning ∧
      classifyBranch [(0 : ℚ), 1] 0 0 = .sentOn) := by
  decide

/-- C1 (amended): a window of at least two samples in which every sample
is `≥ max_idle_power` classifies as Running, provided
`off_power < max_idle_power` (with one sample, or with
`max_idle_power ≤ off_power`, the higher-priority Starting branch can
fire instead, as the counterexample shows). -/
theorem classifyBranch_running_amended :
    ∀ (ps : List ℚ) (offPower maxIdlePower : ℚ),
      2 ≤ ps.length → offPower < maxIdlePower → (∀ p ∈ ps, maxIdlePower ≤ p) →
      classifyBranch ps offPower maxIdlePower = .sentRunning := by
  intro ps offP maxI hlen hlt hall
  have hne : ps.dropLast ≠ [] := by
    intro h
    have hl := congrArg List.length h
    simp [List.length_dropLast] at hl
    omega
  obtain ⟨p0, hp0⟩ := List.exists_mem_of_ne_nil _ hne
  have hp0ps : p0 ∈ ps := (List.dropLast_sublist ps).mem hp0
  have h1 : ¬ ((∀ p ∈ ps.dropLast, p ≤ offP) ∧ offP < ps.getLastD 0) := by
    rintro ⟨hd, _⟩
    exact absurd (le_trans (hall p0 hp0ps) (hd p0 hp0)) (not_le.mpr hlt)
  rw [classifyBranch, if_neg h1, if_pos hall]

/-- C1 witness: the amended theorem at the window `[800, 800, 800]` with
the default thresholds 0 and 5. -/
theorem classifyBranch_running_amended_witness :
    classifyBranch [(800 : ℚ), 800, 800] 0 5 = .sentRunning :=
  classifyBranch_running_amended [(800 : ℚ), 800, 800] 0 5 (by decide) (by decide)
    (by decide)

/-- C5 counterexample: `save_config` is not atomic.  Saving the dump
`"new"` over a file holding `"old"` passes through the truncated state
`some ""`, which is neither the prior document nor the new one. -/
theorem saveConfig_not_atomic :
    ¬ SaveAtomic "new" ∧
    some "" ∈ fsStates (some "old") (saveConfigOps "new") ∧
    some "" ≠ some "old" ∧ some "" ≠ (some "new" : Option String) := by
  refine ⟨?_, ?_, by simp, by simp⟩
  · intro h
    rcases h (some "old") (some "")
        (by simp [fsStates, saveConfigOps, fsApply]) with h1 | h1 <;> simp at h1
  · simp [fsStates, saveConfigOps, fsApply]

/-- C5 (amended): `save_config` overwrites the document in place —
`open(json_name, mode='w')` first truncates the stored file and
`file.write(dump)` then writes the serialized document.  A completed
save leaves exactly the new document, but the crash-exposed states
include the empty truncated file, so the write is not all-or-nothing and
a crash during save can lose the previously persisted document. -/
theorem saveConfig_truncate_then_write :
    ∀ (init : Option String) (dump : String),
      fsRun init (saveConfigOps dump) = some dump ∧
      fsStates init (saveConfigOps dump) = [init, some "", some dump] := by
  intro init dump
  exact ⟨rfl, rfl⟩

/-- C3: `print_on` fires — updating `stats_power_on_time` /
`stats_on_power_total` and attempting the sends — exactly when
`On.last_sent < current_power_on_time` and
`max(Off.time, Done.time) > On.last_sent`; otherwise it returns `False`
with the state untouched; and once a call fired with every attempted
target acknowledging (and `now` at or after the tick time), re-running
the same tick returns `False` and attempts nothing. -/
theorem printOn_fire_conditions :
    ∀ (c : St) (t total now : ℚ) (acks : Target → Bool) (s : Bool),
      (¬ (c.statsOn.last_sent < t ∧
          c.statsOn.last_sent < max c.statsOff.time c.statsDone.time) →
        printOn c t total now acks s = ⟨c, false, []⟩) ∧
      (c.statsOn.last_sent < t →
       c.statsOn.last_sent < max c.statsOff.time c.statsDone.time →
        (printOn c t total now acks s).ret = true ∧
        (printOn c t total now acks s).st.statsOn.time = t ∧
        (printOn c t total now acks s).st.statsOn.power_total = total ∧
        (printOn c t total now acks s).attempted =
          (if s then [] else onAttemptList c.statsOn)) ∧
      (∀ (total2 now2 : ℚ) (acks2 : Target → Bool) (s2 : Bool),
        (printOn c t total now acks s).ret = true →
        (printOn c t total now acks s).attempted.all acks = true →
        t ≤ now →
        printOn (printOn c t total now acks s).st t total2 now2 acks2 s2 =
          ⟨(printOn c t total now acks s).st, false, []⟩) := by
  intro c t total now acks s
  refine ⟨printOn_not_fire c t total now acks s, ?_, ?_⟩
  · intro h1 h2
    rw [printOn_fire c t total now acks s h1 h2]
    exact ⟨rfl, rfl, rfl, rfl⟩
  · intro total2 now2 acks2 s2 hret hall hnow
    by_cases hg : c.statsOn.last_sent < t ∧
        c.statsOn.last_sent < max c.statsOff.time c.statsDone.time
    · apply printOn_not_fire
      rintro ⟨hlt, -⟩
      rw [printOn_fire c t total now acks s hg.1 hg.2] at hlt hall
      dsimp only at hlt hall
      rw [if_pos hall] at hlt
      exact absurd hlt (not_lt.mpr hnow)
    · rw [printOn_not_fire c t total now acks s hg] at hret
      simp at hret

/-- C3 witness: the fire clause at `exampleOnState` and tick time 100 —
`On.last_sent = 0 < 100` and `max(Off.time, Done.time) = 50 > 0`, so the
call fires, stamps the on-record, and attempts the urgency-positive
targets. -/
theorem printOn_fire_conditions_witness :
    (printOn exampleOnState 100 7 150 (fun _ => true) false).ret = true ∧
    (printOn exampleOnState 100 7 150 (fun _ => true) false).st.statsOn.time = 100 ∧
    (printOn exampleOnState 100 7 150
        (fun _ => true) false).st.statsOn.power_total = 7 ∧
    (printOn exampleOnState 100 7 150 (fun _ => true) false).attempted =
      (if false then [] else onAttemptList exampleOnState.statsOn) :=
  (printOn_fire_conditions exampleOnState 100 7 150 (fun _ => true) false).2.1
    (by norm_num [exampleOnState]) (by norm_num [exampleOnState, max_def])

/-- C6: an Off classification earlier than `min_runtime` after
`max(On.enteredAt, Done.enteredAt)` makes `print_off` return `False`
without touching the state or attempting a send; once `min_runtime` has
elapsed and the data-window and new-run guards hold (with a non-negative
configured `min_runtime`), it stamps `Off.enteredAt`/energy and attempts
the notification. -/
theorem printOff_min_runtime_debounce :
    ∀ (c : St) (t total now : ℚ) (acks : Target → Bool) (s : Bool),
      (t - max c.statsOn.time c.statsDone.time < c.minRuntime →
        printOff c t total now acks s = ⟨c, false, []⟩) ∧
      (0 ≤ c.min_runtime_minutes →
       c.minRuntime ≤ t - max c.statsOn.time c.statsDone.time →
       c.minDataWindow ≤ t - c.statsRunning.time →
       c.statsOff.last_sent < max c.statsOn.time c.statsDone.time →
       (printOff c t total now acks s).ret = true ∧
       (printOff c t total now acks s).st.statsOff.time = t ∧
       (printOff c t total now acks s).st.statsOff.power_total = total ∧
       (printOff c t total now acks s).attempted =
         (if s then [] else offAttemptList c.statsOff)) := by
  intro c t total now acks s
  refine ⟨printOff_tooShort c t total now acks s, ?_⟩
  intro h0 hrt hdw hls
  have hmr : (0 : ℚ) ≤ c.minRuntime := mul_nonneg h0 (by norm_num)
  have hlt : c.statsOff.last_sent < t := lt_of_lt_of_le hls (by linarith)
  rw [printOff_send c t total now acks s (not_lt.mpr hrt) (not_lt.mpr hdw) hls
    (Or.inr hlt)]
  exact ⟨rfl, rfl, rfl, rfl⟩

/-- C6 witness: with `min_runtime = 20` minutes and the run started at
on-time 1000, an Off classification at 1300 (5 minutes in) is rejected
outright, while one at 2500 (25 minutes in) stamps the off-record and
attempts the send. -/
theorem printOff_min_runtime_debounce_witness :
    (printOff exampleOffState 1300 3 1400 (fun _ => true) false =
      ⟨exampleOffState, false, []⟩) ∧
    ((printOff exampleOffState 2500 3 2600 (fun _ => true) false).ret = true ∧
     (printOff exampleOffState 2500 3 2600 (fun _ => true) false).st.statsOff.time =
       2500 ∧
     (printOff exampleOffState 2500 3 2600
        (fun _ => true) false).st.statsOff.power_total = 3 ∧
     (printOff exampleOffState 2500 3 2600 (fun _ => true) false).attempted =
       (if false then [] else offAttemptList exampleOffState.statsOff)) :=
  ⟨(printOff_min_runtime_debounce exampleOffState 1300 3 1400
      (fun _ => true) false).1
      (by norm_num [exampleOffState, St.minRuntime, max_def]),
   (printOff_min_runtime_debounce exampleOffState 2500 3 2600
      (fun _ => true) false).2
      (by norm_num [exampleOffState])
      (by norm_num [exampleOffState, St.minRuntime, max_def])
      (by norm_num [exampleOffState, St.minDataWindow])
      (by norm_num [exampleOffState, max_def])⟩

/-- C10: when `print_off` passes its three guards but every attempted
target reports failure, it still stamps `Off.enteredAt` and
`Off.energyAtEntry`, still resets `re_remind_counter` to 0 and still
returns `True`; only `Off.last_sent` keeps its old value. -/
theorem printOff_failure_keeps_state :
    ∀ (c : St) (t total now : ℚ) (acks : Target → Bool),
      0 ≤ c.min_runtime_minutes →
      c.minRuntime ≤ t - max c.statsOn.time c.statsDone.time →
      c.minDataWindow ≤ t - c.statsRunning.time →
      c.statsOff.last_sent < max c.statsOn.time c.statsDone.time →
      offAttemptList c.statsOff ≠ [] →
      (∀ tg ∈ offAttemptList c.statsOff, acks tg = false) →
      (printOff c t total now acks false).ret = true ∧
      (printOff c t total now acks false).st.statsOff.time = t ∧
      (printOff c t total now acks false).st.statsOff.power_total = total ∧
      (printOff c t total now acks false).st.re_remind_counter = 0 ∧
      (printOff c t total now acks false).st.statsOff.last_sent =
        c.statsOff.last_sent := by
  intro c t total now acks h0 hrt hdw hls hne hfail
  have hmr : (0 : ℚ) ≤ c.minRuntime := mul_nonneg h0 (by norm_num)
  have hlt : c.statsOff.last_sent < t := lt_of_lt_of_le hls (by linarith)
  rw [printOff_send c t total now acks false (not_lt.mpr hrt) (not_lt.mpr hdw) hls
    (Or.inr hlt)]
  obtain ⟨tg, htg⟩ := List.exists_mem_of_ne_nil _ hne
  have hallf : (offAttemptList c.statsOff).all acks = false :=
    List.all_eq_false.mpr ⟨tg, htg, by simp [hfail tg htg]⟩
  refine ⟨rfl, rfl, rfl, rfl, ?_⟩
  simp [hallf]

/-- C10 witness: the theorem at `exampleOffState`, off-time 2500, with a
transport that fails every target — `Off.time` becomes 2500, the counter
resets, the call returns `True`, and `Off.last_sent` stays 500. -/
theorem printOff_failure_keeps_state_witness :
    (printOff exampleOffState 2500 3 2600 (fun _ => false) false).ret = true ∧
    (printOff exampleOffState 2500 3 2600 (fun _ => false) false).st.statsOff.time =
      2500 ∧
    (printOff exampleOffState 2500 3 2600
        (fun _ => false) false).st.statsOff.power_total = 3 ∧
    (printOff exampleOffState 2500 3 2600
        (fun _ => false) false).st.re_remind_counter = 0 ∧
    (printOff exampleOffState 2500 3 2600
        (fun _ => false) false).st.statsOff.last_sent =
      exampleOffState.statsOff.last_sent :=
  printOff_failure_keeps_state exampleOffState 2500 3 2600 (fun _ => false)
    (by norm_num [exampleOffState])
    (by norm_num [exampleOffState, St.minRuntime, max_def])
    (by norm_num [exampleOffState, St.minDataWindow])
    (by norm_num [exampleOffState, max_def])
    (by norm_num [offAttemptList, urgAttempt, exampleOffState])
    (fun tg _ => rfl)

/-- C2: in all three notification functions, `last_sent` is set to `now`
exactly when every attempted target acknowledged (vacuously when nothing
was attempted), and keeps its old value otherwise — including whenever
the call returns `False`; and after a failed Off delivery, re-evaluating
the same Off tick attempts the very same targets again. -/
theorem notification_ack_gates_last_sent :
    ∀ (c : St) (t total now : ℚ) (acks : Target → Bool) (s : Bool),
      ((printOn c t total now acks s).ret = true →
        (printOn c t total now acks s).st.statsOn.last_sent =
          (if (printOn c t total now acks s).attempted.all acks then now
           else c.statsOn.last_sent)) ∧
      ((printOn c t total now acks s).ret = false →
        (printOn c t total now acks s).st.statsOn.last_sent =
          c.statsOn.last_sent) ∧
      ((printOff c t total now acks s).ret = true →
        (printOff c t total now acks s).st.statsOff.last_sent =
          (if (printOff c t total now acks s).attempted.all acks then now
           else c.statsOff.last_sent)) ∧
      ((printOff c t total now acks s).ret = false →
        (printOff c t total now acks s).st.statsOff.last_sent =
          c.statsOff.last_sent) ∧
      ((printDone c t total now acks s).ret = true →
        (printDone c t total now acks s).st.statsDone.last_sent =
          (if (printDone c t total now acks s).attempted.all acks then now
           else c.statsDone.last_sent)) ∧
      ((printDone c t total now acks s).ret = false →
        (printDone c t total now acks s).st.statsDone.last_sent =
          c.statsDone.last_sent) ∧
      (∀ (total2 now2 : ℚ),
        0 ≤ c.min_runtime_minutes →
        c.minRuntime ≤ t - max c.statsOn.time c.statsDone.time →
        c.minDataWindow ≤ t - c.statsRunning.time →
        c.statsOff.last_sent < max c.statsOn.time c.statsDone.time →
        (printOff c t total now acks false).attempted.all acks = false →
        (printOff (printOff c t total now acks false).st t total2 now2 acks
            false).ret = true ∧
        (printOff (printOff c t total now acks false).st t total2 now2 acks
            false).attempted = (printOff c t total now acks false).attempted) := by
  intro c t total now acks s
  refine ⟨printOn_last_sent_true c t total now acks s, ?_,
    printOff_last_sent_true c t total now acks s,
    (fun hret => (printOff_false_st c t total now acks s hret).1),
    printDone_last_sent_true c t total now acks s,
    (fun hret => (printDone_false_st c t total now acks s hret).1),
    offRetry c t total now acks⟩
  intro hret
  rw [printOn_false_eq c t total now acks s hret]

/-- C2 witness: the Off clause at `exampleTwoTargetState` (two targets
configured) with the partially failing transport — the call returns
`True`, and since not every attempted target acknowledged, `last_sent`
keeps its old value 500 by the theorem's if-then-else. -/
theorem notification_ack_gates_last_sent_witness :
    (printOff exampleTwoTargetState 2500 3 2600 acksPartial
        false).st.statsOff.last_sent =
      (if (printOff exampleTwoTargetState 2500 3 2600 acksPartial
          false).attempted.all acksPartial
       then 2600 else exampleTwoTargetState.statsOff.last_sent) :=
  (notification_ack_gates_last_sent exampleTwoTargetState 2500 3 2600 acksPartial
      false).2.2.1
    (by norm_num [printOff, St.minRuntime, St.minDataWindow, yearEqOne,
      yearOneEnd, exampleTwoTargetState, max_def])

/-- C7 counterexample: the claim fails as stated — the very first Done
notification (counter 0, re-remind disabled, so certainly not a
re-remind) already increments `re_remind_counter` from 0 to 1 when every
attempted target acknowledges. -/
theorem reRemindCounter_first_done_increments :
    exampleFirstDoneState.re_remind_counter = 0 ∧
    exampleFirstDoneState.re_remind = false ∧
    (printDone exampleFirstDoneState 4000 9 4100 (fun _ => true) false).ret =
      true ∧
    (printDone exampleFirstDoneState 4000 9 4100
        (fun _ => true) false).st.re_remind_counter = 1 := by
  refine ⟨rfl, rfl, ?_, ?_⟩ <;>
    norm_num [printDone, doneReRemindNow, exampleFirstDoneState, St.minRuntime,
      St.minDataWindow, yearEqOne, yearOneEnd, reRemindWait, fib, ratTrunc,
      Qrt5.pow, Qrt5.mul, Qrt5.sub, Qrt5.divSqrt5, phiQ, psiQ, max_def,
      doneAttemptList, urgAttempt]

/-- C7 (amended): `re_remind_counter` resets to 0 whenever the Running
branch runs and whenever a `print_on` / `print_off` call completes
(returns `True`); it stays unchanged on any `False` return; and in
`print_done` it increments by exactly 1 whenever the call reaches its
send phase and every attempted target acknowledges — on re-reminds and
equally on the very first Done notification — and is unchanged
otherwise. -/
theorem reRemindCounter_transitions :
    ∀ (c : St) (t total now : ℚ) (acks : Target → Bool) (s : Bool),
      (runningBranch c t total now acks s).1.re_remind_counter = 0 ∧
      ((printOn c t total now acks s).ret = true →
        (printOn c t total now acks s).st.re_remind_counter = 0) ∧
      ((printOn c t total now acks s).ret = false →
        (printOn c t total now acks s).st = c) ∧
      ((printOff c t total now acks s).ret = true →
        (printOff c t total now acks s).st.re_remind_counter = 0) ∧
      ((printOff c t total now acks s).ret = false →
        (printOff c t total now acks s).st.re_remind_counter =
          c.re_remind_counter) ∧
      ((printDone c t total now acks s).ret = true →
        (printDone c t total now acks s).st.re_remind_counter =
          (if (printDone c t total now acks s).attempted.all acks
           then c.re_remind_counter + 1 else c.re_remind_counter)) ∧
      ((printDone c t total now acks s).ret = false →
        (printDone c t total now acks s).st.re_remind_counter =
          c.re_remind_counter) := by
  intro c t total now acks s
  refine ⟨?_, printOn_counter_true c t total now acks s, ?_,
    printOff_counter_true c t total now acks s,
    (fun hret => (printOff_false_st c t total now acks s hret).2),
    printDone_counter_true c t total now acks s,
    (fun hret => (printDone_false_st c t total now acks s hret).2)⟩
  · simp only [runningBranch]
    split_ifs with hf
    · rcases Bool.eq_false_or_eq_true
          ((printOn
            { c with
              statsRunning := { c.statsRunning with time := t },
              re_remind_counter := 0 } t total now acks s).ret) with hret | hret
      · exact printOn_counter_true _ t total now acks s hret
      · rw [printOn_false_eq _ t total now acks s hret]
    · rfl
  · intro hret
    rw [printOn_false_eq c t total now acks s hret]

/-- C7 witness: the `print_done` increment clause at
`exampleFirstDoneState` with an all-acknowledging transport — the first
Done send bumps the counter by 1 per the theorem's if-then-else. -/
theorem reRemindCounter_transitions_witness :
    (printDone exampleFirstDoneState 4000 9 4100
        (fun _ => true) false).st.re_remind_counter =
      (if (printDone exampleFirstDoneState 4000 9 4100
          (fun _ => true) false).attempted.all (fun _ => true)
       then exampleFirstDoneState.re_remind_counter + 1
       else exampleFirstDoneState.re_remind_counter) :=
  (reRemindCounter_transitions exampleFirstDoneState 4000 9 4100 (fun _ => true)
      false).2.2.2.2.2.1
    (by norm_num [printDone, doneReRemindNow, exampleFirstDoneState,
      St.minRuntime, St.minDataWindow, yearEqOne, yearOneEnd, reRemindWait, fib,
      ratTrunc, Qrt5.pow, Qrt5.mul, Qrt5.sub, Qrt5.divSqrt5, phiQ, psiQ, max_def,
      doneAttemptList, urgAttempt])

theorem lookupJ_setKey_self (o : JObj) (k : String) (v : JVal) :
    lookupJ (setKey o k v) k = some v := by
  induction o with
  | nil => simp [setKey, lookupJ]
  | cons e rest ih =>
      obtain ⟨k1, v1⟩ := e
      by_cases h : k1 = k
      · simp [setKey, h, lookupJ]
      · simp [setKey, h, lookupJ, ih]

theorem lookupJ_setKey_ne (o : JObj) (k k1 : String) (v : JVal) (h : k1 ≠ k) :
    lookupJ (setKey o k v) k1 = lookupJ o k1 := by
  induction o with
  | nil => simp [setKey, lookupJ, Ne.symm h]
  | cons e rest ih =>
      obtain ⟨k2, v2⟩ := e
      by_cases h2 : k2 = k
      · subst h2
        simp [setKey, lookupJ, Ne.symm h]
      · simp [setKey, h2, lookupJ, ih]

theorem setKey_self (o : JObj) (k : String) (v : JVal)
    (h : lookupJ o k = some v) : setKey o k v = o := by
  induction o with
  | nil => simp [lookupJ] at h
  | cons e rest ih =>
      obtain ⟨k1, v1⟩ := e
      by_cases h1 : k1 = k
      · subst h1
        simp [lookupJ] at h
        simp [setKey, h]
      · simp [lookupJ, h1] at h
        simp [setKey, h1, ih h]



theorem setKey_setKey (o : JObj) (k : String) (v w : JVal) :
    setKey (setKey o k v) k w = setKey o k w := by
  induction o with
  | nil => simp [setKey]
  | cons e rest ih =>
      obtain ⟨k1, v1⟩ := e
      by_cases h1 : k1 = k
      · simp [setKey, h1]
      · simp [setKey, h1, ih]

theorem updVal_none_obj (c : JObj) (k : String) (dsub : JObj) (r : Bool)
    (h : lookupJ c k = none) :
    updVal c k (.obj dsub) r =
      (updObj [] dsub false).map (fun m => setKey c k (.obj m)) := by
  simp only [updVal, h, Option.isSome_none, Bool.false_eq_true, if_false,
    lookupJ_setKey_self, setKey_setKey]

theorem updVal_some_obj (c : JObj) (k : String) (dsub csub : JObj) (r : Bool)
    (h : lookupJ c k = some (.obj csub)) :
    updVal c k (.obj dsub) r =
      (updObj csub dsub false).map (fun m => setKey c k (.obj m)) := by
  simp only [updVal, h, Option.isSome_some, if_true]

theorem updVal_some_scalar_obj (c : JObj) (k : String) (dsub : JObj) (r : Bool)
    (v : JVal) (h : lookupJ c k = some v) (hv : v.isObj = false) :
    updVal c k (.obj dsub) r =
      (if dsub.isEmpty then some (setKey c k v) else none) := by
  cases v with
  | obj _ => simp [JVal.isObj] at hv
  | str s => simp only [updVal, h, Option.isSome_some, if_true]
  | num q => simp only [updVal, h, Option.isSome_some, if_true]
  | bool b => simp only [updVal, h, Option.isSome_some, if_true]

theorem updVal_scalar (c : JObj) (k : String) (dv : JVal) (hdv : dv.isObj = false) :
    updVal c k dv false = some (setKey c k ((lookupJ c k).getD dv)) := by
  cases dv with
  | obj _ => simp [JVal.isObj] at hdv
  | str s => simp only [updVal, Bool.false_eq_true, if_false]
  | num q => simp only [updVal, Bool.false_eq_true, if_false]
  | bool b => simp only [updVal, Bool.false_eq_true, if_false]



theorem updVal_false_eq (c : JObj) (k : String) (dv : JVal) (c1 : JObj)
    (h : updVal c k dv false = some c1) :
    ∃ w, c1 = setKey c k w ∧
      ((dv.isObj = false ∧ w = (lookupJ c k).getD dv) ∨
       (∃ dsub, dv = .obj dsub ∧
         ((∃ csub, lookupJ c k = some (.obj csub) ∧
             ∃ m, updObj csub dsub false = some m ∧ w = .obj m) ∨
          (lookupJ c k = none ∧
             ∃ m, updObj [] dsub false = some m ∧ w = .obj m) ∨
          (∃ v, lookupJ c k = some v ∧ v.isObj = false ∧ dsub = [] ∧
             w = v)))) := by
  cases dv with
  | str s =>
      rw [updVal_scalar c k (.str s) rfl] at h
      simp only [Option.some.injEq] at h
      exact ⟨_, h.symm, Or.inl ⟨rfl, rfl⟩⟩
  | num q =>
      rw [updVal_scalar c k (.num q) rfl] at h
      simp only [Option.some.injEq] at h
      exact ⟨_, h.symm, Or.inl ⟨rfl, rfl⟩⟩
  | bool b =>
      rw [updVal_scalar c k (.bool b) rfl] at h
      simp only [Option.some.injEq] at h
      exact ⟨_, h.symm, Or.inl ⟨rfl, rfl⟩⟩
  | obj dsub =>
      rcases hl : lookupJ c k with _ | v
      · rw [updVal_none_obj c k dsub false hl] at h
        rcases hm : updObj [] dsub false with _ | m
        · rw [hm] at h
          exact absurd h (by simp)
        · rw [hm] at h
          simp only [Option.map_some', Option.some.injEq] at h
          exact ⟨.obj m, h.symm, Or.inr ⟨dsub, rfl, Or.inr (Or.inl ⟨rfl, m, hm, rfl⟩)⟩⟩
      · cases v with
        | obj csub =>
            rw [updVal_some_obj c k dsub csub false hl] at h
            rcases hm : updObj csub dsub false with _ | m
            · rw [hm] at h
              exact absurd h (by simp)
            · rw [hm] at h
              simp only [Option.map_some', Option.some.injEq] at h
              exact ⟨.obj m, h.symm,
                Or.inr ⟨dsub, rfl, Or.inl ⟨csub, rfl, m, hm, rfl⟩⟩⟩
        | str s =>
            rw [updVal_some_scalar_obj c k dsub false (.str s) hl rfl] at h
            by_cases he : dsub.isEmpty
            · rw [if_pos he] at h
              simp only [Option.some.injEq] at h
              exact ⟨.str s, h.symm, Or.inr ⟨dsub, rfl, Or.inr (Or.inr
                ⟨.str s, rfl, rfl, List.isEmpty_iff.mp he, rfl⟩)⟩⟩
            · rw [if_neg he] at h
              exact absurd h (by simp)
        | num q =>
            rw [updVal_some_scalar_obj c k dsub false (.num q) hl rfl] at h
            by_cases he : dsub.isEmpty
            · rw [if_pos he] at h
              simp only [Option.some.injEq] at h
              exact ⟨.num q, h.symm, Or.inr ⟨dsub, rfl, Or.inr (Or.inr
                ⟨.num q, rfl, rfl, List.isEmpty_iff.mp he, rfl⟩)⟩⟩
            · rw [if_neg he] at h
              exact absurd h (by simp)
        | bool b =>
            rw [updVal_some_scalar_obj c k dsub false (.bool b) hl rfl] at h
            by_cases he : dsub.isEmpty
            · rw [if_pos he] at h
              simp only [Option.some.injEq] at h
              exact ⟨.bool b, h.symm, Or.inr ⟨dsub, rfl, Or.inr (Or.inr
                ⟨.bool b, rfl, rfl, List.isEmpty_iff.mp he, rfl⟩)⟩⟩
            · rw [if_neg he] at h
              exact absurd h (by simp)

theorem updVal_lookup_ne (c : JObj) (k : String) (dv : JVal) (c1 : JObj)
    (h : updVal c k dv false = some c1) (k1 : String) (hne : k1 ≠ k) :
    lookupJ c1 k1 = lookupJ c k1 := by
  obtain ⟨w, rfl, -⟩ := updVal_false_eq c k dv c1 h
  exact lookupJ_setKey_ne c k k1 w hne

theorem updVal_lookup_self_isSome (c : JObj) (k : String) (dv : JVal) (c1 : JObj)
    (h : updVal c k dv false = some c1) : (lookupJ c1 k).isSome := by
  obtain ⟨w, rfl, -⟩ := updVal_false_eq c k dv c1 h
  rw [lookupJ_setKey_self]
  rfl



theorem lookupJ_eq_none_of_all_ne (o : JObj) (k : String)
    (h : ∀ e ∈ o, e.1 ≠ k) : lookupJ o k = none := by
  induction o with
  | nil => rfl
  | cons e rest ih =>
      obtain ⟨k1, v1⟩ := e
      simp only [lookupJ]
      rw [if_neg (h (k1, v1) (by simp))]
      exact ih (fun e he => h e (by simp [he]))

theorem updObj_lookup_ne (c d c2 : JObj) (h : updObj c d false = some c2)
    (k1 : String) (hk : lookupJ d k1 = none) :
    lookupJ c2 k1 = lookupJ c k1 := by
  induction d generalizing c with
  | nil =>
      simp only [updObj, Option.some.injEq] at h
      rw [← h]
  | cons e rest ih =>
      obtain ⟨k, dv⟩ := e
      simp only [updObj] at h
      rcases hv : updVal c k dv false with _ | c1
      · rw [hv] at h
        simp at h
      · rw [hv] at h
        simp only [lookupJ] at hk
        by_cases hkk : k = k1
        · rw [if_pos hkk] at hk
          simp at hk
        · rw [if_neg hkk] at hk
          rw [ih c1 h hk]
          exact updVal_lookup_ne c k dv c1 hv k1 (Ne.symm hkk)

theorem updVal_isSome_mono (c : JObj) (k : String) (dv : JVal) (c1 : JObj)
    (h : updVal c k dv false = some c1) (k1 : String)
    (hs : (lookupJ c k1).isSome) : (lookupJ c1 k1).isSome := by
  obtain ⟨w, rfl, -⟩ := updVal_false_eq c k dv c1 h
  by_cases hk : k1 = k
  · subst hk
    rw [lookupJ_setKey_self]
    rfl
  · rwa [lookupJ_setKey_ne c k k1 w hk]

theorem updObj_isSome_mono (c d c2 : JObj) (h : updObj c d false = some c2)
    (k1 : String) (hs : (lookupJ c k1).isSome) : (lookupJ c2 k1).isSome := by
  induction d generalizing c with
  | nil =>
      simp only [updObj, Option.some.injEq] at h
      rwa [← h]
  | cons e rest ih =>
      obtain ⟨k, dv⟩ := e
      simp only [updObj] at h
      rcases hv : updVal c k dv false with _ | c1
      · rw [hv] at h
        simp at h
      · rw [hv] at h
        exact ih c1 h (updVal_isSome_mono c k dv c1 hv k1 hs)

theorem updObj_default_key_present (c d c2 : JObj)
    (h : updObj c d false = some c2) (k : String)
    (hk : (lookupJ d k).isSome) : (lookupJ c2 k).isSome := by
  induction d generalizing c with
  | nil => simp [lookupJ] at hk
  | cons e rest ih =>
      obtain ⟨k0, dv⟩ := e
      simp only [updObj] at h
      rcases hv : updVal c k0 dv false with _ | c1
      · rw [hv] at h
        simp at h
      · rw [hv] at h
        by_cases hkk : k0 = k
        · subst hkk
          exact updObj_isSome_mono c1 rest c2 h k0
            (updVal_lookup_self_isSome c k0 dv c1 hv)
        · simp only [lookupJ, if_neg hkk] at hk
          exact ih c1 h hk

theorem updObj_absent_scalar (c d c2 : JObj) (hnd : nodupKeys d = true)
    (h : updObj c d false = some c2) (k : String) (dv : JVal)
    (hc : lookupJ c k = none) (hd : lookupJ d k = some dv)
    (hobj : dv.isObj = false) : lookupJ c2 k = some dv := by
  induction d generalizing c with
  | nil => simp [lookupJ] at hd
  | cons e rest ih =>
      obtain ⟨k0, dv0⟩ := e
      simp only [nodupKeys, Bool.and_eq_true] at hnd
      obtain ⟨⟨hall, -⟩, hrest⟩ := hnd
      simp only [updObj] at h
      rcases hv : updVal c k0 dv0 false with _ | c1
      · rw [hv] at h
        simp at h
      · rw [hv] at h
        by_cases hkk : k0 = k
        · subst hkk
          simp only [lookupJ, eq_self_iff_true, if_true, Option.some.injEq] at hd
          subst hd
          have hc1 : lookupJ c1 k0 = some dv0 := by
            rw [updVal_scalar c k0 dv0 hobj] at hv
            injection hv with hv
            rw [← hv, lookupJ_setKey_self, hc]
            rfl
          have hrest0 : lookupJ rest k0 = none := by
            apply lookupJ_eq_none_of_all_ne
            intro e he
            have := List.all_eq_true.mp hall e he
            simpa using this
          rw [updObj_lookup_ne c1 rest c2 h k0 hrest0]
          exact hc1
        · simp only [lookupJ, if_neg hkk] at hd
          have hc1 : lookupJ c1 k = none := by
            rw [updVal_lookup_ne c k0 dv0 c1 hv k (Ne.symm hkk)]
            exact hc
          exact ih c1 hrest h hc1 hd



theorem lookupJ_sizeOf (o : JObj) (k : String) (v : JVal)
    (h : lookupJ o k = some v) : sizeOf v < sizeOf o := by
  induction o with
  | nil => simp [lookupJ] at h
  | cons e rest ih =>
      obtain ⟨k1, v1⟩ := e
      by_cases hk : k1 = k
      · simp only [lookupJ, if_pos hk, Option.some.injEq] at h
        subst h
        simp
        omega
  
      · simp only [lookupJ, if_neg hk] at h
        have := ih h
        simp
        omega

theorem PreservesVal_refl : ∀ (v : JVal), PreservesVal v v
  | .str s => .scalar _ _ rfl rfl
  | .num q => .scalar _ _ rfl rfl
  | .bool b => .scalar _ _ rfl rfl
  | .obj entries =>
      .obj entries entries (fun _ hk => hk)
        (fun k v w hv hw => by
          rw [hv] at hw
          injection hw with hw
          rw [← hw]
          exact PreservesVal_refl v)
termination_by v => sizeOf v
decreasing_by
  have h1 := lookupJ_sizeOf entries k v hv
  simp
  omega

theorem PreservesObj_refl (o : JObj) : PreservesObj o o :=
  ⟨fun _ hk => hk, fun k v w hv hw => by
    rw [hv] at hw
    injection hw with hw
    rw [← hw]
    exact PreservesVal_refl v⟩

theorem PreservesVal_trans {u v : JVal} (h1 : PreservesVal u v) :
    ∀ {w : JVal}, PreservesVal v w → PreservesVal u w := by
  induction h1 with
  | scalar v1 w1 hv hw =>
      intro w h2
      rw [hw] at h2
      exact h2
  | obj e1 e2 hdom h ih =>
      intro w h2
      cases h2 with
      | scalar v2 w2 hv2 hw2 => simp [JVal.isObj] at hv2
      | obj e2 e3 hdom2 h2 =>
          refine .obj e1 e3 (fun k hk => hdom2 k (hdom k hk)) ?_
          intro k a cc ha hc
          obtain ⟨b, hb⟩ := Option.isSome_iff_exists.mp (hdom k (by simp [ha]))
          exact ih k a b ha hb (h2 k b cc hb hc)

theorem PreservesObj_trans {a b c : JObj} (h1 : PreservesObj a b)
    (h2 : PreservesObj b c) : PreservesObj a c :=
  ⟨fun k hk => h2.1 k (h1.1 k hk), fun k v w hv hw => by
    obtain ⟨u, hu⟩ := Option.isSome_iff_exists.mp (h1.1 k (by simp [hv]))
    exact PreservesVal_trans (h1.2 k v u hv hu) (h2.2 k u w hu hw)⟩



mutual

theorem updVal_preserves (c : JObj) (k : String) (dv : JVal) (c1 : JObj)
    (h : updVal c k dv false = some c1) : PreservesObj c c1 := by
  obtain ⟨w, rfl, hcases⟩ := updVal_false_eq c k dv c1 h
  constructor
  · intro k1 hk1
    by_cases hk : k1 = k
    · subst hk
      rw [lookupJ_setKey_self]
      rfl
    · rwa [lookupJ_setKey_ne c k k1 w hk]
  · intro k1 v1 w1 hv1 hw1
    by_cases hk : k1 = k
    · subst hk
      rw [lookupJ_setKey_self, Option.some.injEq] at hw1
      subst hw1
      rcases hcases with ⟨hobj, hw⟩ | ⟨dsub, rfl, hsub⟩
      · rw [hv1] at hw
        simp only [Option.getD_some] at hw
        rw [hw]
        exact PreservesVal_refl v1
      · rcases hsub with ⟨csub, hlc, m, hm, hw⟩ | ⟨hlnone, -⟩ | ⟨v2, hlv, -, -, hw⟩
        · rw [hv1] at hlc
          injection hlc with hlc
          subst hw
          rw [hlc]
          have hp := updObj_preserves csub dsub m hm
          exact .obj csub m hp.1 hp.2
        · rw [hv1] at hlnone
          cases hlnone
        · rw [hv1] at hlv
          injection hlv with hlv
          rw [hlv, hw]
          exact PreservesVal_refl v2
    · rw [lookupJ_setKey_ne c k k1 w hk, hv1, Option.some.injEq] at hw1
      rw [← hw1]
      exact PreservesVal_refl v1

theorem updObj_preserves (c d c2 : JObj) (h : updObj c d false = some c2) :
    PreservesObj c c2 := by
  match d with
  | [] =>
      simp only [updObj, Option.some.injEq] at h
      rw [← h]
      exact PreservesObj_refl c
  | (k0, dv0) :: rest =>
      simp only [updObj] at h
      rcases hv : updVal c k0 dv0 false with _ | c1
      · rw [hv] at h
        simp at h
      · rw [hv] at h
        exact PreservesObj_trans (updVal_preserves c k0 dv0 c1 hv)
          (updObj_preserves c1 rest c2 h)

end



mutual

theorem updVal_idem (c c1 cc : JObj) (k : String) (dv : JVal)
    (hnd : nodupKeysVal dv = true)
    (h : updVal c k dv false = some c1)
    (hl : lookupJ cc k = lookupJ c1 k) :
    updVal cc k dv false = some cc := by
  obtain ⟨w, rfl, hcases⟩ := updVal_false_eq c k dv c1 h
  rw [lookupJ_setKey_self] at hl
  rcases hcases with ⟨hobj, hw⟩ | ⟨dsub, rfl, hsub⟩
  · rw [updVal_scalar cc k dv hobj, hl]
    simp only [Option.getD_some]
    rw [setKey_self cc k w hl]
  · rcases hsub with ⟨csub, hlc, m, hm, hw⟩ | ⟨hlnone, m, hm, hw⟩ | ⟨v2, hlv, hvobj, hdsub, hw⟩
    · subst hw
      rw [updVal_some_obj cc k dsub m false hl]
      rw [updObj_idem csub m dsub (by simpa [nodupKeysVal] using hnd) hm]
      simp only [Option.map_some']
      rw [setKey_self cc k (.obj m) hl]
    · subst hw
      rw [updVal_some_obj cc k dsub m false hl]
      rw [updObj_idem [] m dsub (by simpa [nodupKeysVal] using hnd) hm]
      simp only [Option.map_some']
      rw [setKey_self cc k (.obj m) hl]
    · subst hw
      subst hdsub
      rw [updVal_some_scalar_obj cc k [] false w hl hvobj]
      simp only [List.isEmpty_nil, if_true]
      rw [setKey_self cc k w hl]

theorem updObj_idem (c c2 : JObj) (d : JObj) (hnd : nodupKeys d = true)
    (h : updObj c d false = some c2) :
    updObj c2 d false = some c2 := by
  match d with
  | [] => rfl
  | (k0, dv0) :: rest =>
      simp only [nodupKeys, Bool.and_eq_true] at hnd
      obtain ⟨⟨hall, hdv0⟩, hrest⟩ := hnd
      simp only [updObj] at h
      rcases hv : updVal c k0 dv0 false with _ | c1
      · rw [hv] at h
        simp at h
      · rw [hv] at h
        have hk0rest : lookupJ rest k0 = none := by
          apply lookupJ_eq_none_of_all_ne
          intro e he
          simpa using List.all_eq_true.mp hall e he
        have hl : lookupJ c2 k0 = lookupJ c1 k0 :=
          updObj_lookup_ne c1 rest c2 h k0 hk0rest
        have hv2 : updVal c2 k0 dv0 false = some c2 :=
          updVal_idem c c1 c2 k0 dv0 hdv0 hv hl
        have hr2 : updObj c2 rest false = some c2 :=
          updObj_idem c1 c2 rest hrest h
        simp only [updObj, hv2]
        exact hr2

end

/-- C4: merging the stored document with the hardcoded defaults
(`update_dict_recursive` with reset `False`) (i) never deletes or
changes a stored value — scalars survive unchanged and objects survive
recursively, keys absent from the defaults such as `device_name`
included; (ii) adds values only for keys absent from the document —
nothing appears that is in neither the document nor the defaults, every
default key is present afterwards, and an absent scalar-default key
receives exactly its default value; (iii) is idempotent: merging the
result with the defaults again returns it unchanged. -/
theorem update_dict_recursive_merge :
    ∀ (doc doc2 : JObj),
      updObj doc defaultConfig false = some doc2 →
      PreservesObj doc doc2 ∧
      (∀ k, lookupJ doc k = none → lookupJ defaultConfig k = none →
        lookupJ doc2 k = none) ∧
      (∀ k, (lookupJ defaultConfig k).isSome → (lookupJ doc2 k).isSome) ∧
      (∀ k dv, lookupJ doc k = none → lookupJ defaultConfig k = some dv →
        dv.isObj = false → lookupJ doc2 k = some dv) ∧
      updObj doc2 defaultConfig false = some doc2 := by
  intro doc doc2 h
  refine ⟨updObj_preserves doc defaultConfig doc2 h, ?_, ?_, ?_, ?_⟩
  · intro k hc hd
    rw [updObj_lookup_ne doc defaultConfig doc2 h k hd]
    exact hc
  · intro k hk
    exact updObj_default_key_present doc defaultConfig doc2 h k hk
  · intro k dv hc hd hobj
    exact updObj_absent_scalar doc defaultConfig doc2 rfl h k dv hc hd hobj
  · exact updObj_idem doc doc2 defaultConfig rfl h

/-- C4 witness: the theorem applied to `exampleDoc`, whose merge with
the defaults computes (by `rfl`) to `exampleDocMerged` — `device_name`
and the off-power override survive, the missing fields appear with their
defaults, and re-merging is the identity. -/
theorem update_dict_recursive_merge_witness :
    PreservesObj exampleDoc exampleDocMerged ∧
    (∀ k, lookupJ exampleDoc k = none → lookupJ defaultConfig k = none →
      lookupJ exampleDocMerged k = none) ∧
    (∀ k, (lookupJ defaultConfig k).isSome →
      (lookupJ exampleDocMerged k).isSome) ∧
    (∀ k dv, lookupJ exampleDoc k = none → lookupJ defaultConfig k = some dv →
      dv.isObj = false → lookupJ exampleDocMerged k = some dv) ∧
    updObj exampleDocMerged defaultConfig false = some exampleDocMerged :=
  update_dict_recursive_merge exampleDoc exampleDocMerged rfl

end LogTasmota
